import Mathlib

/-!
Verification of the hot-reloadable simulation runtime: a shallow embedding of
the memory arena (`src/lib/memory_arena.h`), the render-command buffer and its
replay loop (`src/platform/linux_main.cpp` / `src/main.cpp`), the button-state
input model, the dynamic-module loader (`src/platform/dll_loader.h`,
`src/platform/file_watcher.h`) and the host loop, together with proofs of the
specified properties.
-/

namespace HotReload

/-- Model of `usize` is 64 bits wide on the targeted platforms; all `usize` arithmetic
in the source is modulo `USIZE = 2^64`. -/
def USIZE : Nat := 2 ^ 64

theorem USIZE_eq : USIZE = 18446744073709551616 := rfl

/-- Bitwise complement on a 64-bit word: the C expression `~m` on a `usize`.
For `m < 2^64` this is XOR with the all-ones word, exactly as the hardware
computes it. -/
def not64 (m : Nat) : Nat := (m % USIZE) ^^^ (USIZE - 1)

/-- Model of `MemoryArena` from `src/lib/memory_arena.h`: a borrowed buffer of `size`
bytes with bump cursor `used`.  The `base` pointer is left abstract; every
offset in this development is relative to `base`. -/
structure MemoryArena where
  size : Nat
  used : Nat
deriving DecidableEq, Repr

/-- Model of `MemoryArena::make`: binds a buffer of `size_bytes` bytes, `used = 0`. -/
def MemoryArena.make (size_bytes : Nat) : MemoryArena :=
  { size := size_bytes, used := 0 }

/-- The aligned offset computed by `MemoryArena::push_size`:
`(used + (alignment - 1)) & ~(alignment - 1)` in `usize` arithmetic. -/
def alignOffset (used alignment : Nat) : Nat :=
  ((used + (alignment - 1)) % USIZE) &&& not64 (alignment - 1)

/-- Model of `MemoryArena::push_size`.  The `ASSERT` in `src/lib/def.h` writes through a
null pointer on failure, aborting the process; a trap is modelled as `none`.
On success the result is the returned offset (`result = base + aligned_offset`)
together with the updated arena. -/
def MemoryArena.push_size (a : MemoryArena) (size_bytes alignment : Nat) :
    Option (Nat × MemoryArena) :=
  let aligned_offset := alignOffset a.used alignment
  if (aligned_offset + size_bytes) % USIZE ≤ a.size then
    some (aligned_offset, { a with used := (aligned_offset + size_bytes) % USIZE })
  else
    none

/-- Model of `MemoryArena::clear`: `used = 0`. -/
def MemoryArena.clear (a : MemoryArena) : MemoryArena := { a with used := 0 }

/-- A sequence of `push_size` calls, each given as `(size_bytes, alignment)`;
`none` as soon as any push traps. -/
def pushSeq (a : MemoryArena) : List (Nat × Nat) → Option MemoryArena
  | [] => some a
  | p :: rest =>
    match a.push_size p.1 p.2 with
    | none => none
    | some pr => pushSeq pr.2 rest

/-- The individually aligned size of each push in a sequence starting at
cursor `used`: its size plus the padding inserted to align its offset. -/
def alignedSizes (used : Nat) : List (Nat × Nat) → List Nat
  | [] => []
  | p :: rest =>
    (alignOffset used p.2 - used + p.1) ::
      alignedSizes ((alignOffset used p.2 + p.1) % USIZE) rest

/-- Model of `TemporaryMemory` from `src/lib/memory_arena.h`: stores the arena cursor
at checkpoint creation.  The arena itself is passed explicitly where the
source holds a pointer to it. -/
structure TemporaryMemory where
  saved_used : Nat
deriving DecidableEq, Repr

/-- Model of `TemporaryMemory::make`: records `arena->used`. -/
def TemporaryMemory.make (a : MemoryArena) : TemporaryMemory :=
  { saved_used := a.used }

/-- Model of `TemporaryMemory::end`: `arena->used = saved_used` (named `endTemp`
because `end` is reserved in Lean). -/
def TemporaryMemory.endTemp (t : TemporaryMemory) (a : MemoryArena) :
    MemoryArena :=
  { a with used := t.saved_used }

/-! Bitwise facts about the alignment computation. -/

theorem lor_le_add (a : Nat) : ∀ b : Nat, (a ||| b) ≤ a + b := by
  induction a using Nat.strong_induction_on with
  | _ a ih =>
    intro b
    rcases Nat.eq_zero_or_pos a with h0 | hpos
    · simp [h0]
    · have hdiv : a / 2 < a := Nat.div_lt_self hpos (by omega)
      have hrec := ih (a / 2) hdiv (b / 2)
      have hsplit : (a ||| b) = 2 * ((a / 2) ||| (b / 2)) + (a ||| b) % 2 := by
        have := Nat.div_add_mod (a ||| b) 2
        rw [Nat.or_div_two] at this
        omega
      have hmod : (a ||| b) % 2 ≤ a % 2 + b % 2 := by
        rcases Nat.mod_two_eq_zero_or_one (a ||| b) with h | h
        · omega
        · have h1 : a % 2 = 1 ∨ b % 2 = 1 := Nat.or_mod_two_eq_one.mp h
          omega
      have ha := Nat.div_add_mod a 2
      have hb := Nat.div_add_mod b 2
      omega

theorem lor_not64_self (m : Nat) (hm : m < USIZE) :
    (m ||| not64 m) = USIZE - 1 := by
  apply Nat.eq_of_testBit_eq
  intro i
  have hmod : m % USIZE = m := Nat.mod_eq_of_lt hm
  rw [Nat.testBit_lor, not64, hmod, Nat.testBit_xor, USIZE,
    Nat.testBit_two_pow_sub_one]
  by_cases hi : i < 64
  · simp [hi]
  · have : m < 2 ^ i := lt_of_lt_of_le hm (Nat.pow_le_pow_right (by omega) (by omega))
    simp [Nat.testBit_lt_two_pow this, hi]

theorem land_split_ge (x m : Nat) (hx : x < USIZE) (hm : m < USIZE) :
    x ≤ (x &&& m) + (x &&& not64 m) := by
  have hx' : ((x &&& m) ||| (x &&& not64 m)) = x := by
    rw [← Nat.and_or_distrib_left, lor_not64_self m hm]
    have h2 : x &&& (USIZE - 1) = x % USIZE := by
      rw [USIZE]
      exact Nat.and_pow_two_sub_one_eq_mod x 64
    rw [h2, Nat.mod_eq_of_lt hx]
  calc x = (x &&& m) ||| (x &&& not64 m) := hx'.symm
    _ ≤ (x &&& m) + (x &&& not64 m) := lor_le_add _ _

/-- Under no 64-bit overflow, the aligned offset never moves the cursor
backwards: `used ≤ (used + (a-1)) & ~(a-1)` for any alignment (the cleared
low bits remove at most `a - 1` from `used + (a - 1)`). -/
theorem le_alignOffset (used alignment : Nat)
    (h : used + (alignment - 1) < USIZE) : used ≤ alignOffset used alignment := by
  have hmlt : alignment - 1 < USIZE := by omega
  have hxm : (used + (alignment - 1)) % USIZE = used + (alignment - 1) :=
    Nat.mod_eq_of_lt h
  have hle : ((used + (alignment - 1)) &&& (alignment - 1)) ≤ alignment - 1 :=
    Nat.and_le_right
  have hsplit := land_split_ge (used + (alignment - 1)) (alignment - 1) h hmlt
  rw [alignOffset, hxm]
  omega

/-- The aligned offset never exceeds `used + (alignment - 1)`. -/
theorem alignOffset_le (used alignment : Nat)
    (h : used + (alignment - 1) < USIZE) :
    alignOffset used alignment ≤ used + (alignment - 1) := by
  rw [alignOffset, Nat.mod_eq_of_lt h]
  exact Nat.and_le_left

theorem not64_two_pow_sub_one (k : Nat) (hk : k ≤ 64) :
    not64 (2 ^ k - 1) = 2 ^ k * (2 ^ (64 - k) - 1) := by
  have hple : 2 ^ k ≤ USIZE := by
    rw [USIZE]
    exact Nat.pow_le_pow_right (by omega) hk
  have hpos : (0:Nat) < 2 ^ k := Nat.two_pow_pos k
  have hlt : 2 ^ k - 1 < USIZE := by omega
  apply Nat.eq_of_testBit_eq
  intro i
  rw [not64, Nat.mod_eq_of_lt hlt, Nat.testBit_xor, USIZE,
    Nat.testBit_two_pow_sub_one, Nat.testBit_two_pow_sub_one,
    Nat.testBit_mul_pow_two, Nat.testBit_two_pow_sub_one]
  by_cases h1 : i < k
  · simp [h1, show i < 64 by omega, show ¬ (i ≥ k) by omega]
  · by_cases h2 : i < 64
    · simp [h1, h2, show i ≥ k by omega, show i - k < 64 - k by omega]
    · simp [h1, h2, show i ≥ k by omega, show ¬ (i - k < 64 - k) by omega]

/-- For a power-of-two alignment `2^k` the masking in `push_size` is exactly
rounding down to a multiple of `2^k`: `x & ~(2^k - 1) = 2^k * (x / 2^k)`. -/
theorem land_not64_pow_two (x k : Nat) (hx : x < USIZE) (hk : k ≤ 64) :
    (x &&& not64 (2 ^ k - 1)) = 2 ^ k * (x / 2 ^ k) := by
  rw [not64_two_pow_sub_one k hk]
  apply Nat.eq_of_testBit_eq
  intro i
  rw [Nat.testBit_land, Nat.testBit_mul_pow_two, Nat.testBit_mul_pow_two,
    Nat.testBit_two_pow_sub_one]
  have hdiv : ∀ j, (x / 2 ^ k).testBit j = x.testBit (k + j) := by
    intro j
    rw [← Nat.shiftRight_eq_div_pow, Nat.testBit_shiftRight]
  by_cases h1 : i < k
  · simp [show ¬ (i ≥ k) by omega]
  · by_cases h2 : i < 64
    · rw [hdiv]
      simp [show i ≥ k by omega, show i - k < 64 - k by omega,
        show k + (i - k) = i by omega, Bool.and_comm]
    · have hxi : x.testBit i = false := by
        apply Nat.testBit_lt_two_pow
        calc x < USIZE := hx
          _ ≤ 2 ^ i := by
            rw [USIZE]
            exact Nat.pow_le_pow_right (by omega) (by omega)
      rw [hdiv]
      simp [show k + (i - k) = i by omega, hxi,
        show ¬ (i - k < 64 - k) by omega]

/-- For a power-of-two alignment, `alignOffset` is round-up to a multiple. -/
theorem alignOffset_pow_two (used k : Nat) (hk : k ≤ 64)
    (hov : used + 2 ^ k ≤ USIZE) :
    alignOffset used (2 ^ k) = 2 ^ k * ((used + (2 ^ k - 1)) / 2 ^ k) := by
  have hp : (0:Nat) < 2 ^ k := Nat.two_pow_pos k
  have hlt : used + (2 ^ k - 1) < USIZE := by omega
  rw [alignOffset, Nat.mod_eq_of_lt hlt, land_not64_pow_two _ _ hlt hk]

/-! ## Claim theorems: memory arena -/

/-- C5: starting from `used = 0`, the cursor after every push sequence that
never traps equals the sum of the individually aligned sizes (size plus
alignment padding), assuming no push can overflow 64-bit arithmetic. -/
theorem pushSeq_used_sum (ps : List (Nat × Nat)) :
    ∀ (a a' : MemoryArena), a.used ≤ a.size →
    (∀ p ∈ ps, 0 < p.2 ∧ a.size + p.2 + p.1 ≤ USIZE) →
    pushSeq a ps = some a' →
    a'.used = a.used + (alignedSizes a.used ps).sum ∧ a'.size = a.size := by
  induction ps with
  | nil =>
    intro a a' _ _ h
    simp only [pushSeq] at h
    cases h
    simp [alignedSizes]
  | cons p rest ih =>
    intro a a' hinv hov h
    obtain ⟨hal, hple⟩ := hov p (List.mem_cons_self p rest)
    have hx : a.used + (p.2 - 1) < USIZE := by omega
    have hge := le_alignOffset a.used p.2 hx
    have hle := alignOffset_le a.used p.2 hx
    have hmod : (alignOffset a.used p.2 + p.1) % USIZE =
        alignOffset a.used p.2 + p.1 := by
      apply Nat.mod_eq_of_lt
      omega
    simp only [pushSeq, MemoryArena.push_size, hmod] at h
    by_cases hfit : alignOffset a.used p.2 + p.1 ≤ a.size
    · rw [if_pos hfit] at h
      have hrest := ih { a with used := alignOffset a.used p.2 + p.1 } a'
        (by simpa using hfit)
        (by intro q hq; exact hov q (List.mem_cons_of_mem p hq)) h
      have hu : ({ a with used := alignOffset a.used p.2 + p.1 } :
          MemoryArena).used = alignOffset a.used p.2 + p.1 := rfl
      have hsz : ({ a with used := alignOffset a.used p.2 + p.1 } :
          MemoryArena).size = a.size := rfl
      rw [hu, hsz] at hrest
      obtain ⟨h1, h2⟩ := hrest
      simp only [alignedSizes, List.sum_cons, hmod]
      constructor
      · rw [h1]
        omega
      · exact h2
    · rw [if_neg hfit] at h
      cases h

/-- C5 (claim form): for every sequence of pushes with sizes and alignments,
starting from `used = 0` and with no push trapping (in particular none
exceeding capacity), the final `used` equals the sum of the individually
aligned sizes. -/
theorem C5_used_eq_sum_aligned_sizes (size : Nat) (ps : List (Nat × Nat))
    (a' : MemoryArena)
    (hov : ∀ p ∈ ps, 0 < p.2 ∧ size + p.2 + p.1 ≤ USIZE)
    (h : pushSeq (MemoryArena.make size) ps = some a') :
    a'.used = (alignedSizes 0 ps).sum := by
  have := pushSeq_used_sum ps (MemoryArena.make size) a' (Nat.zero_le _) hov h
  simpa [MemoryArena.make] using this.1

theorem C5_witness :
    (∀ p ∈ [(600, 16), (100, 4)], 0 < p.2 ∧ 1024 + p.2 + p.1 ≤ USIZE) ∧
    pushSeq (MemoryArena.make 1024) [(600, 16), (100, 4)] =
      some { size := 1024, used := 700 } ∧
    (700:Nat) = (alignedSizes 0 [(600, 16), (100, 4)]).sum := by
  refine ⟨by decide, by decide, ?_⟩
  exact (C5_used_eq_sum_aligned_sizes 1024 [(600, 16), (100, 4)]
    { size := 1024, used := 700 } (by decide) (by decide)).symm ▸ rfl

/-- C6: a push traps (`ASSERT` dereferences null, aborting the process) if
and only if the aligned allocation would exceed the capacity; pushes that
fit never trap. -/
theorem C6_push_traps_iff_exceeds (a : MemoryArena) (s al : Nat)
    (hov : alignOffset a.used al + s < USIZE) :
    (a.push_size s al = none ↔ a.size < alignOffset a.used al + s) := by
  simp only [MemoryArena.push_size, Nat.mod_eq_of_lt hov]
  by_cases hfit : alignOffset a.used al + s ≤ a.size
  · rw [if_pos hfit]
    simp
    omega
  · rw [if_neg hfit]
    simp
    omega

/-- The spec scenario for C6: on a 1024-byte arena (default 16-byte
alignment, `alignof(max_align_t)`), a 600-byte push succeeds and a second
600-byte push traps (608 + 600 > 1024). -/
theorem C6_witness :
    (MemoryArena.make 1024).push_size 600 16 =
      some (0, { size := 1024, used := 600 }) ∧
    ({ size := 1024, used := 600 } : MemoryArena).push_size 600 16 = none := by
  constructor
  · decide
  · exact (C6_push_traps_iff_exceeds { size := 1024, used := 600 } 600 16
      (by decide)).mpr (by decide)

/-- C7: `end()` restores `used` to its value at checkpoint creation, for any
sequence of pushes in between; nested checkpoints ended in reverse creation
order each restore the `used` saved at their creation. -/
theorem C7_checkpoint_restores (a a1 a2 : MemoryArena)
    (ps qs : List (Nat × Nat))
    (h1 : pushSeq a ps = some a1) (h2 : pushSeq a1 qs = some a2) :
    ((TemporaryMemory.make a).endTemp a1).used = a.used ∧
    ((TemporaryMemory.make a1).endTemp a2).used = a1.used ∧
    ((TemporaryMemory.make a).endTemp
      ((TemporaryMemory.make a1).endTemp a2)).used = a.used :=
  ⟨rfl, rfl, rfl⟩

theorem C7_witness :
    ((TemporaryMemory.make (MemoryArena.make 1024)).endTemp
      { size := 1024, used := 600 }).used = 0 :=
  (C7_checkpoint_restores (MemoryArena.make 1024)
    { size := 1024, used := 600 } { size := 1024, used := 700 }
    [(600, 16)] [(100, 4)] (by decide) (by decide)).1

/-- C10: for a power-of-two alignment `2^k`, a successful push returns the
least multiple of `2^k` that is at least the previous `used` (the source
computes it as `(used + (a - 1)) & ~(a - 1)`). -/
theorem C10_pow_two_alignment (a : MemoryArena) (k s off : Nat)
    (a' : MemoryArena) (hk : k ≤ 64) (hov : a.used + 2 ^ k ≤ USIZE)
    (hpush : a.push_size s (2 ^ k) = some (off, a')) :
    2 ^ k ∣ off ∧ a.used ≤ off ∧ off < a.used + 2 ^ k ∧
    ∀ m, 2 ^ k ∣ m → a.used ≤ m → off ≤ m := by
  have hp : (0:Nat) < 2 ^ k := Nat.two_pow_pos k
  have hoff : off = 2 ^ k * ((a.used + (2 ^ k - 1)) / 2 ^ k) := by
    simp only [MemoryArena.push_size] at hpush
    by_cases hfit : (alignOffset a.used (2 ^ k) + s) % USIZE ≤ a.size
    · rw [if_pos hfit] at hpush
      cases hpush
      exact alignOffset_pow_two a.used k hk hov
    · rw [if_neg hfit] at hpush
      cases hpush
  have hdm := Nat.div_add_mod (a.used + (2 ^ k - 1)) (2 ^ k)
  have hmlt : (a.used + (2 ^ k - 1)) % 2 ^ k < 2 ^ k := Nat.mod_lt _ hp
  refine ⟨⟨_, hoff⟩, by omega, by omega, ?_⟩
  intro m hdvd hm
  obtain ⟨q, hq⟩ := hdvd
  have hdivle : (a.used + (2 ^ k - 1)) / 2 ^ k ≤ q := by
    have h1 : a.used + (2 ^ k - 1) ≤ (2 ^ k - 1) + 2 ^ k * q := by omega
    have h2 := Nat.div_le_div_right (c := 2 ^ k) h1
    have hdd : (2 ^ k - 1) / 2 ^ k = 0 := Nat.div_eq_of_lt (by omega)
    rwa [Nat.add_mul_div_left _ _ hp, hdd, Nat.zero_add] at h2
  calc off = 2 ^ k * ((a.used + (2 ^ k - 1)) / 2 ^ k) := hoff
    _ ≤ 2 ^ k * q := Nat.mul_le_mul_left _ hdivle
    _ = m := hq.symm

theorem C10_witness :
    (2:Nat) ^ 4 ∣ 16 ∧ 9 ≤ (16:Nat) ∧ (16:Nat) < 9 + 2 ^ 4 := by
  have h := C10_pow_two_alignment { size := 1024, used := 9 } 4 100 16
    { size := 1024, used := 116 } (by omega) (by decide) (by decide)
  exact ⟨h.1, h.2.1, h.2.2.1⟩

/-! ## Render-command buffer

The command structs of `game_interface.h` are laid out from 32-bit fields
only (`enum RenderCommandType` is a 4-byte `int`, `f32`, `u32` and `Color`
are 4 bytes, all with alignment 4), so there is no padding:
`sizeof(RenderCommandClear) = 8`, `sizeof(RenderCommandRect) = 24`,
`sizeof(RenderCommandSprite) = 28`, each with `alignof = 4`.
`f32` fields are only ever stored and copied, never computed with, so they
are represented by their 4-byte bit patterns (a `Nat < 2^32`). -/

/-- The arena's buffer contents: a byte store indexed by offset from
`base`. -/
def Mem : Type := Nat → Nat

/-- Store one byte. -/
def writeByte (m : Mem) (addr val : Nat) : Mem :=
  fun i => if i = addr then val % 256 else m i

/-- Store a 32-bit word, little-endian. -/
def writeWord32 (m : Mem) (addr w : Nat) : Mem :=
  writeByte (writeByte (writeByte (writeByte m addr w)
    (addr + 1) (w / 2 ^ 8)) (addr + 2) (w / 2 ^ 16)) (addr + 3) (w / 2 ^ 24)

/-- Load a 32-bit word, little-endian. -/
def readWord32 (m : Mem) (addr : Nat) : Nat :=
  m addr % 256 + 2 ^ 8 * (m (addr + 1) % 256) +
    2 ^ 16 * (m (addr + 2) % 256) + 2 ^ 24 * (m (addr + 3) % 256)

/-- Model of `enum RenderCommandType`: `RenderCommand_Clear = 0`,
`RenderCommand_Rect = 1`, `RenderCommand_Sprite = 2`. -/
def RenderCommand_Clear : Nat := 0

def RenderCommand_Rect : Nat := 1

def RenderCommand_Sprite : Nat := 2

/-- Model of `RenderCommands` from `game_interface.h`: target size, the arena and
(modelled explicitly) the bytes of the arena's buffer. -/
structure RenderCommands where
  width : Nat
  height : Nat
  arena : MemoryArena
  mem : Mem

/-- Writing a `RenderCommandClear` the way the simulation does:
`push_struct<RenderCommandClear>()` (8 bytes, alignment 4), then store
`header.type` and `color` through the returned pointer. -/
def pushClear (rc : RenderCommands) (color : Nat) : Option RenderCommands :=
  match rc.arena.push_size 8 4 with
  | none => none
  | some pr =>
    some
      { rc with
        arena := pr.2,
        mem := writeWord32 (writeWord32 rc.mem pr.1 RenderCommand_Clear)
          (pr.1 + 4) color }

/-- Writing a `RenderCommandRect` (24 bytes, alignment 4): `header.type`,
`x`, `y`, `w`, `h`, `color`. -/
def pushRect (rc : RenderCommands) (x y w h color : Nat) :
    Option RenderCommands :=
  match rc.arena.push_size 24 4 with
  | none => none
  | some pr =>
    some
      { rc with
        arena := pr.2,
        mem := writeWord32 (writeWord32 (writeWord32 (writeWord32 (writeWord32
          (writeWord32 rc.mem pr.1 RenderCommand_Rect) (pr.1 + 4) x)
          (pr.1 + 8) y) (pr.1 + 12) w) (pr.1 + 16) h) (pr.1 + 20) color }

/-- Writing a `RenderCommandSprite` (28 bytes, alignment 4): `header.type`,
`x`, `y`, `w`, `h`, `texture_id`, `tint`. -/
def pushSprite (rc : RenderCommands) (x y w h texture_id tint : Nat) :
    Option RenderCommands :=
  match rc.arena.push_size 28 4 with
  | none => none
  | some pr =>
    some
      { rc with
        arena := pr.2,
        mem := writeWord32 (writeWord32 (writeWord32 (writeWord32 (writeWord32
          (writeWord32 (writeWord32 rc.mem pr.1 RenderCommand_Sprite)
          (pr.1 + 4) x) (pr.1 + 8) y) (pr.1 + 12) w) (pr.1 + 16) h)
          (pr.1 + 20) texture_id) (pr.1 + 24) tint }

/-- One renderer call made by `execute_render_commands`. -/
inductive Dispatch where
  | setClearColor (color : Nat)
  | drawRect (x y w h color : Nat)
  | drawSprite (x y w h texture_id tint : Nat)
deriving DecidableEq, Repr

/-- The replay loop's state: the cursor `at` (an offset from `base`; named
`cursor` because `at` is reserved in Lean) and the renderer calls made so
far, in order. -/
structure ReplayState where
  cursor : Nat
  dispatches : List Dispatch
deriving DecidableEq, Repr

/-- One iteration of the `while (at < end)` loop of
`execute_render_commands`.  The `switch` has no `default` case: a tag other
than `Clear`/`Rect`/`Sprite` dispatches nothing and leaves `at` unchanged. -/
def execStep (mem : Mem) (used : Nat) (s : ReplayState) : ReplayState :=
  if s.cursor < used then
    let tag := readWord32 mem s.cursor
    if tag = RenderCommand_Clear then
      { cursor := s.cursor + 8,
        dispatches := s.dispatches ++
          [.setClearColor (readWord32 mem (s.cursor + 4))] }
    else if tag = RenderCommand_Rect then
      { cursor := s.cursor + 24,
        dispatches := s.dispatches ++
          [.drawRect (readWord32 mem (s.cursor + 4))
            (readWord32 mem (s.cursor + 8)) (readWord32 mem (s.cursor + 12))
            (readWord32 mem (s.cursor + 16))
            (readWord32 mem (s.cursor + 20))] }
    else if tag = RenderCommand_Sprite then
      { cursor := s.cursor + 28,
        dispatches := s.dispatches ++
          [.drawSprite (readWord32 mem (s.cursor + 4))
            (readWord32 mem (s.cursor + 8)) (readWord32 mem (s.cursor + 12))
            (readWord32 mem (s.cursor + 16)) (readWord32 mem (s.cursor + 20))
            (readWord32 mem (s.cursor + 24))] }
    else s
  else s

/-- Model of `execute_render_commands`, fuel-indexed: `fuel` bounds the number of
loop iterations observed (the C loop itself has no bound; running out of
fuel before `at` reaches `end` corresponds to observing a prefix of a
non-terminating run). -/
def execRenderCommands (fuel : Nat) (mem : Mem) (used : Nat)
    (s : ReplayState) : ReplayState :=
  match fuel with
  | 0 => s
  | fuel + 1 => execRenderCommands fuel mem used (execStep mem used s)

theorem execStep_of_unrecognized (mem : Mem) (used : Nat) (s : ReplayState)
    (htag : readWord32 mem s.cursor ≠ RenderCommand_Clear ∧
      readWord32 mem s.cursor ≠ RenderCommand_Rect ∧
      readWord32 mem s.cursor ≠ RenderCommand_Sprite) :
    execStep mem used s = s := by
  rw [execStep]
  by_cases hc : s.cursor < used
  · rw [if_pos hc, if_neg htag.1, if_neg htag.2.1, if_neg htag.2.2]
  · rw [if_neg hc]

/-- C1: when the bytes at the replay cursor hold a tag that is not one of
the recognized command tags, playback halts at that record: however many
further loop iterations run, no renderer call is dispatched and the cursor
never advances past the unrecognized record (the loop neither guesses a
record size nor continues). -/
theorem C1_unrecognized_tag_halts (mem : Mem) (used : Nat) (s : ReplayState)
    (hcur : s.cursor < used)
    (htag : readWord32 mem s.cursor ≠ RenderCommand_Clear ∧
      readWord32 mem s.cursor ≠ RenderCommand_Rect ∧
      readWord32 mem s.cursor ≠ RenderCommand_Sprite) :
    ∀ fuel, execRenderCommands fuel mem used s = s := by
  intro fuel
  induction fuel with
  | zero => rfl
  | succ n ih =>
    rw [execRenderCommands, execStep_of_unrecognized mem used s htag]
    exact ih

theorem C1_witness :
    readWord32 (writeWord32 (fun _ => 0) 0 99) 0 = 99 ∧
    execRenderCommands 5 (writeWord32 (fun _ => 0) 0 99) 8
      { cursor := 0, dispatches := [] } =
      { cursor := 0, dispatches := [] } := by
  constructor
  · decide
  · exact C1_unrecognized_tag_halts (writeWord32 (fun _ => 0) 0 99) 8
      { cursor := 0, dispatches := [] } (by decide)
      ⟨by decide, by decide, by decide⟩ 5

theorem writeByte_at (m : Mem) (a v : Nat) : writeByte m a v a = v % 256 := by
  simp [writeByte]

theorem writeByte_ne (m : Mem) (a v i : Nat) (h : i ≠ a) :
    writeByte m a v i = m i := by
  simp [writeByte, h]

theorem writeWord32_outside (m : Mem) (b w i : Nat)
    (h : i < b ∨ b + 4 ≤ i) : writeWord32 m b w i = m i := by
  rw [writeWord32, writeByte_ne _ _ _ _ (by omega),
    writeByte_ne _ _ _ _ (by omega), writeByte_ne _ _ _ _ (by omega),
    writeByte_ne _ _ _ _ (by omega)]

theorem readWord32_writeWord32_same (m : Mem) (a w : Nat) (hw : w < 2 ^ 32) :
    readWord32 (writeWord32 m a w) a = w := by
  rw [readWord32, writeWord32]
  rw [show writeByte (writeByte (writeByte (writeByte m a w)
      (a + 1) (w / 2 ^ 8)) (a + 2) (w / 2 ^ 16)) (a + 3) (w / 2 ^ 24) a =
      w % 256 by
    rw [writeByte_ne _ _ _ _ (by omega), writeByte_ne _ _ _ _ (by omega),
      writeByte_ne _ _ _ _ (by omega), writeByte_at]]
  rw [show writeByte (writeByte (writeByte (writeByte m a w)
      (a + 1) (w / 2 ^ 8)) (a + 2) (w / 2 ^ 16)) (a + 3) (w / 2 ^ 24)
      (a + 1) = w / 2 ^ 8 % 256 by
    rw [writeByte_ne _ _ _ _ (by omega), writeByte_ne _ _ _ _ (by omega),
      writeByte_at]]
  rw [show writeByte (writeByte (writeByte (writeByte m a w)
      (a + 1) (w / 2 ^ 8)) (a + 2) (w / 2 ^ 16)) (a + 3) (w / 2 ^ 24)
      (a + 2) = w / 2 ^ 16 % 256 by
    rw [writeByte_ne _ _ _ _ (by omega), writeByte_at]]
  rw [show writeByte (writeByte (writeByte (writeByte m a w)
      (a + 1) (w / 2 ^ 8)) (a + 2) (w / 2 ^ 16)) (a + 3) (w / 2 ^ 24)
      (a + 3) = w / 2 ^ 24 % 256 by rw [writeByte_at]]
  omega

theorem readWord32_writeWord32_disjoint (m : Mem) (a b w : Nat)
    (h : a + 4 ≤ b ∨ b + 4 ≤ a) :
    readWord32 (writeWord32 m b w) a = readWord32 m a := by
  rw [readWord32, readWord32, writeWord32_outside _ _ _ _ (by omega),
    writeWord32_outside _ _ _ _ (by omega),
    writeWord32_outside _ _ _ _ (by omega),
    writeWord32_outside _ _ _ _ (by omega)]

theorem execRenderCommands_add (f1 f2 : Nat) (mem : Mem) (used : Nat) :
    ∀ s, execRenderCommands (f1 + f2) mem used s =
      execRenderCommands f2 mem used (execRenderCommands f1 mem used s) := by
  induction f1 with
  | zero => intro s; rw [Nat.zero_add]; rfl
  | succ n ih =>
    intro s
    rw [show n + 1 + f2 = (n + f2) + 1 by omega]
    exact ih (execStep mem used s)

theorem execRenderCommands_done (fuel : Nat) (mem : Mem) (used : Nat)
    (s : ReplayState) (h : ¬ s.cursor < used) :
    execRenderCommands fuel mem used s = s := by
  induction fuel with
  | zero => rfl
  | succ n ih =>
    rw [execRenderCommands, execStep, if_neg h]
    exact ih

/-- The C2 scenario: a `Clear`, a `Rect` and a `Sprite` command written in
that order into an empty render-command buffer through `push_struct`. -/
def writeThreeCommands (m0 : Mem) (size wd ht c x y w h k x2 y2 w2 h2 tex
    tint : Nat) : Option RenderCommands :=
  match pushClear
      { width := wd, height := ht, arena := MemoryArena.make size,
        mem := m0 } c with
  | none => none
  | some rc1 =>
    match pushRect rc1 x y w h k with
    | none => none
    | some rc2 => pushSprite rc2 x2 y2 w2 h2 tex tint

/-- The buffer bytes produced by the C2 write sequence: the `Clear` record
at offsets 0..8, the `Rect` record at 8..32, the `Sprite` record at
32..60 (tag words 0, 1, 2 at offsets 0, 8, 32). -/
def threeCmdMem (m0 : Mem) (c x y w h k x2 y2 w2 h2 tex tint : Nat) : Mem :=
  writeWord32 (writeWord32 (writeWord32 (writeWord32 (writeWord32
    (writeWord32 (writeWord32 (writeWord32 (writeWord32 (writeWord32
    (writeWord32 (writeWord32 (writeWord32 (writeWord32 (writeWord32
    m0 0 0) 4 c) 8 1) 12 x) 16 y) 20 w) 24 h) 28 k) 32 2) 36 x2)
    40 y2) 44 w2) 48 h2) 52 tex) 56 tint

theorem threeCmdMem_reads (m0 : Mem) (c x y w h k x2 y2 w2 h2 tex
    tint : Nat)
    (hc : c < 2 ^ 32) (hx : x < 2 ^ 32) (hy : y < 2 ^ 32) (hw : w < 2 ^ 32)
    (hh : h < 2 ^ 32) (hk : k < 2 ^ 32) (hx2 : x2 < 2 ^ 32)
    (hy2 : y2 < 2 ^ 32) (hw2 : w2 < 2 ^ 32) (hh2 : h2 < 2 ^ 32)
    (htex : tex < 2 ^ 32) (htint : tint < 2 ^ 32) :
    readWord32 (threeCmdMem m0 c x y w h k x2 y2 w2 h2 tex tint) 0 = 0 ∧
    readWord32 (threeCmdMem m0 c x y w h k x2 y2 w2 h2 tex tint) 4 = c ∧
    readWord32 (threeCmdMem m0 c x y w h k x2 y2 w2 h2 tex tint) 8 = 1 ∧
    readWord32 (threeCmdMem m0 c x y w h k x2 y2 w2 h2 tex tint) 12 = x ∧
    readWord32 (threeCmdMem m0 c x y w h k x2 y2 w2 h2 tex tint) 16 = y ∧
    readWord32 (threeCmdMem m0 c x y w h k x2 y2 w2 h2 tex tint) 20 = w ∧
    readWord32 (threeCmdMem m0 c x y w h k x2 y2 w2 h2 tex tint) 24 = h ∧
    readWord32 (threeCmdMem m0 c x y w h k x2 y2 w2 h2 tex tint) 28 = k ∧
    readWord32 (threeCmdMem m0 c x y w h k x2 y2 w2 h2 tex tint) 32 = 2 ∧
    readWord32 (threeCmdMem m0 c x y w h k x2 y2 w2 h2 tex tint) 36 = x2 ∧
    readWord32 (threeCmdMem m0 c x y w h k x2 y2 w2 h2 tex tint) 40 = y2 ∧
    readWord32 (threeCmdMem m0 c x y w h k x2 y2 w2 h2 tex tint) 44 = w2 ∧
    readWord32 (threeCmdMem m0 c x y w h k x2 y2 w2 h2 tex tint) 48 = h2 ∧
    readWord32 (threeCmdMem m0 c x y w h k x2 y2 w2 h2 tex tint) 52 = tex ∧
    readWord32 (threeCmdMem m0 c x y w h k x2 y2 w2 h2 tex tint) 56 =
      tint := by
  refine ⟨?_, ?_, ?_, ?_, ?_, ?_, ?_, ?_, ?_, ?_, ?_, ?_, ?_, ?_, ?_⟩ <;>
    simp (disch := omega) only [threeCmdMem,
      readWord32_writeWord32_disjoint, readWord32_writeWord32_same]

/-- C2: writing `Clear(c)`, `Rect(x,y,w,h,k)`, `Sprite(x2,y2,w2,h2,tex,tint)`
in that order into an empty render-command buffer via `push_struct` and
replaying it with `execute_render_commands` makes exactly three renderer
calls, in write order, with exactly the stored field values (field words are
the 4-byte patterns the writer stored, so equality is byte-identity). -/
theorem C2_round_trip (m0 : Mem) (size wd ht c x y w h k x2 y2 w2 h2 tex
    tint : Nat) (hsize : 60 ≤ size)
    (hc : c < 2 ^ 32) (hx : x < 2 ^ 32) (hy : y < 2 ^ 32) (hw : w < 2 ^ 32)
    (hh : h < 2 ^ 32) (hk : k < 2 ^ 32) (hx2 : x2 < 2 ^ 32)
    (hy2 : y2 < 2 ^ 32) (hw2 : w2 < 2 ^ 32) (hh2 : h2 < 2 ^ 32)
    (htex : tex < 2 ^ 32) (htint : tint < 2 ^ 32) :
    (∃ rc, writeThreeCommands m0 size wd ht c x y w h k x2 y2 w2 h2 tex tint =
      some rc) ∧
    ∀ rc, writeThreeCommands m0 size wd ht c x y w h k x2 y2 w2 h2 tex tint =
      some rc →
      rc.arena.used = 60 ∧
      ∀ extra, execRenderCommands (3 + extra) rc.mem rc.arena.used
        { cursor := 0, dispatches := [] } =
        { cursor := 60,
          dispatches := [.setClearColor c, .drawRect x y w h k,
            .drawSprite x2 y2 w2 h2 tex tint] } := by
  have q1 : (MemoryArena.make size).push_size 8 4 =
      some (0, { size := size, used := 8 }) := by
    simp only [MemoryArena.push_size, MemoryArena.make,
      show alignOffset 0 4 = 0 from by decide,
      show (0 + 8) % USIZE = 8 from by decide,
      if_pos (show 8 ≤ size by omega)]
  have q2 : ({ size := size, used := 8 } : MemoryArena).push_size 24 4 =
      some (8, { size := size, used := 32 }) := by
    simp only [MemoryArena.push_size,
      show alignOffset 8 4 = 8 from by decide,
      show (8 + 24) % USIZE = 32 from by decide,
      if_pos (show 32 ≤ size by omega)]
  have q3 : ({ size := size, used := 32 } : MemoryArena).push_size 28 4 =
      some (32, { size := size, used := 60 }) := by
    simp only [MemoryArena.push_size,
      show alignOffset 32 4 = 32 from by decide,
      show (32 + 28) % USIZE = 60 from by decide,
      if_pos (show 60 ≤ size by omega)]
  have hwr : writeThreeCommands m0 size wd ht c x y w h k x2 y2 w2 h2 tex
      tint = some
        { width := wd, height := ht, arena := { size := size, used := 60 },
          mem := threeCmdMem m0 c x y w h k x2 y2 w2 h2 tex tint } := by
    simp only [writeThreeCommands, pushClear, pushRect, pushSprite, q1, q2, q3]
    rfl
  refine ⟨⟨_, hwr⟩, ?_⟩
  intro rc hrc
  rw [hwr] at hrc
  cases hrc
  refine ⟨rfl, ?_⟩
  intro extra
  rw [execRenderCommands_add]
  obtain ⟨r0, r4, r8, r12, r16, r20, r24, r28, r32, r36, r40, r44, r48, r52,
    r56⟩ := threeCmdMem_reads m0 c x y w h k x2 y2 w2 h2 tex tint hc hx hy
    hw hh hk hx2 hy2 hw2 hh2 htex htint
  have s1 : execStep (threeCmdMem m0 c x y w h k x2 y2 w2 h2 tex tint) 60
      { cursor := 0, dispatches := [] } =
      { cursor := 8, dispatches := [.setClearColor c] } := by
    rw [execStep]
    simp only [RenderCommand_Clear, RenderCommand_Rect, RenderCommand_Sprite,
      r0, r4, if_pos (show (0:Nat) < 60 by omega), List.nil_append,
      if_pos (show (0:Nat) = 0 from rfl), if_true, Nat.zero_add]
  have s2 : execStep (threeCmdMem m0 c x y w h k x2 y2 w2 h2 tex tint) 60
      { cursor := 8, dispatches := [.setClearColor c] } =
      { cursor := 32,
        dispatches := [.setClearColor c, .drawRect x y w h k] } := by
    rw [execStep]
    simp only [RenderCommand_Clear, RenderCommand_Rect, RenderCommand_Sprite,
      show (8:Nat) + 4 = 12 from rfl, show (8:Nat) + 8 = 16 from rfl,
      show (8:Nat) + 12 = 20 from rfl, show (8:Nat) + 16 = 24 from rfl,
      show (8:Nat) + 20 = 28 from rfl, show (8:Nat) + 24 = 32 from rfl,
      r8, r12, r16, r20, r24, r28, if_pos (show (8:Nat) < 60 by omega),
      if_neg (show ¬ (1:Nat) = 0 by omega),
      if_pos (show (1:Nat) = 1 from rfl), if_true, List.cons_append,
      List.nil_append]
  have s3 : execStep (threeCmdMem m0 c x y w h k x2 y2 w2 h2 tex tint) 60
      { cursor := 32,
        dispatches := [.setClearColor c, .drawRect x y w h k] } =
      { cursor := 60,
        dispatches := [.setClearColor c, .drawRect x y w h k,
          .drawSprite x2 y2 w2 h2 tex tint] } := by
    rw [execStep]
    simp only [RenderCommand_Clear, RenderCommand_Rect, RenderCommand_Sprite,
      show (32:Nat) + 4 = 36 from rfl, show (32:Nat) + 8 = 40 from rfl,
      show (32:Nat) + 12 = 44 from rfl, show (32:Nat) + 16 = 48 from rfl,
      show (32:Nat) + 20 = 52 from rfl, show (32:Nat) + 24 = 56 from rfl,
      show (32:Nat) + 28 = 60 from rfl,
      r32, r36, r40, r44, r48, r52, r56,
      if_pos (show (32:Nat) < 60 by omega),
      if_neg (show ¬ (2:Nat) = 0 by omega),
      if_neg (show ¬ (2:Nat) = 1 by omega),
      if_pos (show (2:Nat) = 2 from rfl), if_true, List.cons_append,
      List.nil_append]
  have h3 : execRenderCommands 3
      (threeCmdMem m0 c x y w h k x2 y2 w2 h2 tex tint) 60
      { cursor := 0, dispatches := [] } =
      { cursor := 60,
        dispatches := [.setClearColor c, .drawRect x y w h k,
          .drawSprite x2 y2 w2 h2 tex tint] } := by
    show execRenderCommands (2 + 1)
      (threeCmdMem m0 c x y w h k x2 y2 w2 h2 tex tint) 60
      { cursor := 0, dispatches := [] } = _
    rw [execRenderCommands, s1]
    show execRenderCommands (1 + 1) _ _ _ = _
    rw [execRenderCommands, s2]
    show execRenderCommands (0 + 1) _ _ _ = _
    rw [execRenderCommands, s3]
    rfl
  rw [h3]
  exact execRenderCommands_done extra _ 60 _
    (by show ¬ (60:Nat) < 60; omega)

theorem C2_witness :
    execRenderCommands 3
      (threeCmdMem (fun _ => 0) 10 11 12 13 14 15 16 17 18 19 20 21) 60
      { cursor := 0, dispatches := [] } =
      { cursor := 60,
        dispatches := [.setClearColor 10, .drawRect 11 12 13 14 15,
          .drawSprite 16 17 18 19 20 21] } := by
  have h := (C2_round_trip (fun _ => 0) 4194304 320 180 10 11 12 13 14 15 16
    17 18 19 20 21 (by decide) (by decide) (by decide) (by decide)
    (by decide) (by decide) (by decide) (by decide) (by decide) (by decide)
    (by decide) (by decide) (by decide)).2
    { width := 320, height := 180, arena := { size := 4194304, used := 60 },
      mem := threeCmdMem (fun _ => 0) 10 11 12 13 14 15 16 17 18 19 20 21 }
    rfl
  simpa using h.2 0

/-! ## Input: button states and half-transition counting

`b32` is a typedef of `i32`; the event processors only ever pass `0` or `1`
for `is_down`, and `!=` compares the integer values.  Counts in the
specified scenarios stay far below `2^31`, so `i32` wrap-around is
immaterial and the fields are modelled as unbounded integers. -/

/-- Model of `GameButtonState` from `game_interface.h`. -/
structure GameButtonState where
  ended_down : Int
  half_transition_count : Int
deriving DecidableEq, Repr

/-- Model of `GameInput` from `game_interface.h` (`dt_for_frame` is an `f32`,
modelled as its bit pattern; it plays no role in the claims). -/
structure GameInput where
  dt_for_frame : Nat
  move_up : GameButtonState
  move_down : GameButtonState
  move_left : GameButtonState
  move_right : GameButtonState
  action : GameButtonState
  mouse_x : Int
  mouse_y : Int
  mouse_buttons : Fin 3 → GameButtonState

/-- Model of `process_button_event` from `linux_main.cpp` / `main.cpp`: on an edge
(`ended_down != is_down`) record the new level and count one half
transition; otherwise do nothing. -/
def process_button_event (s : GameButtonState) (is_down : Int) :
    GameButtonState :=
  if s.ended_down ≠ is_down then
    { ended_down := is_down,
      half_transition_count := s.half_transition_count + 1 }
  else s

/-- Model of `reset_input_half_transitions`: zero every button's
`half_transition_count`, touching nothing else. -/
def reset_input_half_transitions (input : GameInput) : GameInput :=
  { input with
    move_up := { input.move_up with half_transition_count := 0 },
    move_down := { input.move_down with half_transition_count := 0 },
    move_left := { input.move_left with half_transition_count := 0 },
    move_right := { input.move_right with half_transition_count := 0 },
    action := { input.action with half_transition_count := 0 },
    mouse_buttons := fun i =>
      { input.mouse_buttons i with half_transition_count := 0 } }

/-- All button states of a `GameInput`, in declaration order. -/
def buttons (input : GameInput) : List GameButtonState :=
  [input.move_up, input.move_down, input.move_left, input.move_right,
    input.action, input.mouse_buttons 0, input.mouse_buttons 1,
    input.mouse_buttons 2]

/-- C8 counterexample: from a button that is already held down
(`ended_down = 1`), a down event followed by an up event yields
`half_transition_count = 1`, not `2` — the claim's universal quantification
over every button state fails. -/
theorem C8_counterexample :
    ¬ ((process_button_event (process_button_event
        { ended_down := 1, half_transition_count := 0 } 1)
        0).half_transition_count = 2) := by
  decide

/-- C8 (amended): for a button state that is released with a zeroed count
(the state at the start of a poll interval after the host reset, button
up), a down event then an up event yield `half_transition_count = 2` and
`ended_down = 0`; events that repeat the current level never change the
state; and the end-of-frame reset zeroes every button's count while
preserving every `ended_down`. -/
theorem C8_half_transitions (s : GameButtonState)
    (hdown : s.ended_down = 0) (hcount : s.half_transition_count = 0) :
    (process_button_event (process_button_event s 1)
      0).half_transition_count = 2 ∧
    (process_button_event (process_button_event s 1) 0).ended_down = 0 ∧
    (∀ (t : GameButtonState) (d : Int), t.ended_down = d →
      process_button_event t d = t) ∧
    ∀ input : GameInput,
      buttons (reset_input_half_transitions input) =
        (buttons input).map fun b =>
          { ended_down := b.ended_down, half_transition_count := 0 } := by
  obtain ⟨e, c⟩ := s
  simp only at hdown hcount
  subst hdown hcount
  refine ⟨by decide, by decide, ?_, ?_⟩
  · intro t d h
    simp [process_button_event, h]
  · intro input
    simp [buttons, reset_input_half_transitions]

theorem C8_witness :
    (process_button_event (process_button_event
      { ended_down := 0, half_transition_count := 0 } 1)
      0).half_transition_count = 2 :=
  (C8_half_transitions { ended_down := 0, half_transition_count := 0 }
    rfl rfl).1

/-! ## Dynamic-module loader (`platform/dll_loader.h`, `platform/file_watcher.h`)

The filesystem is modelled as an association list from paths to file
metadata.  `snprintf(..., "%s_%u.dylib", temp_dll_base, g_dll_load_counter++)`
produces a name determined by the base string and the counter, and distinct
counters give distinct names for a fixed base, so temp paths are modelled
as a dedicated constructor carrying both. -/

/-- A filesystem path: either a literal path string or a formatted temp
path `"<base>_<counter>.dylib"`. -/
inductive Path where
  | str (s : String)
  | temp (base : String) (counter : Nat)
deriving DecidableEq, Repr

/-- What the loader can observe of a file: its `st_mtime`, an abstract
identity of its bytes, whether `dlopen` accepts those bytes, whether
`dlsym "game_update_and_render"` resolves, and what
`dlsym "game_get_version"` resolves to (if present). -/
structure FileInfo where
  mtime : Nat
  content : Nat
  loadable : Bool
  has_entry : Bool
  version_sym : Option Nat
deriving DecidableEq, Repr

/-- First-match lookup; later entries are shadowed by earlier ones. -/
def lookupFile : List (Path × FileInfo) → Path → Option FileInfo
  | [], _ => none
  | e :: rest, p => if e.1 = p then some e.2 else lookupFile rest p

/-- Creating/overwriting a file. -/
def fsInsert (fs : List (Path × FileInfo)) (p : Path) (fi : FileInfo) :
    List (Path × FileInfo) :=
  (p, fi) :: fs

/-- Model of `unlink`: every entry for the path disappears. -/
def fsDelete : List (Path × FileInfo) → Path → List (Path × FileInfo)
  | [], _ => []
  | e :: rest, p =>
    if e.1 = p then fsDelete rest p else e :: fsDelete rest p

theorem lookupFile_insert_self (fs : List (Path × FileInfo)) (p : Path)
    (fi : FileInfo) : lookupFile (fsInsert fs p fi) p = some fi := by
  simp [fsInsert, lookupFile]

theorem lookupFile_insert_ne (fs : List (Path × FileInfo)) (p q : Path)
    (fi : FileInfo) (h : q ≠ p) :
    lookupFile (fsInsert fs p fi) q = lookupFile fs q := by
  show (if p = q then some fi else lookupFile fs q) = lookupFile fs q
  exact if_neg fun hpq => h hpq.symm

theorem lookupFile_delete (fs : List (Path × FileInfo)) (p q : Path) :
    lookupFile (fsDelete fs p) q =
      if q = p then none else lookupFile fs q := by
  induction fs with
  | nil => by_cases hq : q = p <;> simp [fsDelete, lookupFile, hq]
  | cons e rest ih =>
    rw [fsDelete]
    by_cases he : e.1 = p
    · rw [if_pos he, ih]
      by_cases hq : q = p
      · rw [if_pos hq, if_pos hq]
      · rw [if_neg hq, if_neg hq, lookupFile,
          if_neg (fun h1 : e.1 = q => hq (h1 ▸ he))]
    · rw [if_neg he, lookupFile]
      by_cases heq : e.1 = q
      · rw [if_pos heq, if_neg (fun h1 : q = p => he (h1 ▸ heq)),
          lookupFile, if_pos heq]
      · rw [if_neg heq, ih]
        by_cases hq : q = p
        · rw [if_pos hq, if_pos hq]
        · rw [if_neg hq, if_neg hq, lookupFile, if_neg heq]

/-- Model of `platform_file_exists` (`access(path, F_OK) == 0`). -/
def platform_file_exists (fs : List (Path × FileInfo)) (p : Path) : Bool :=
  (lookupFile fs p).isSome

/-- Model of `platform_get_file_write_time`: `stat` and read `st_mtime`; a missing
file leaves the zero-initialized `FileTime`. -/
def platform_get_file_write_time (fs : List (Path × FileInfo)) (p : Path) :
    Nat :=
  match lookupFile fs p with
  | some fi => fi.mtime
  | none => 0

/-- Model of `platform_file_time_changed`: `old_time.value != new_time.value`. -/
def platform_file_time_changed (old_time new_time : Nat) : Bool :=
  decide (old_time ≠ new_time)

/-- Model of `platform_copy_file`: no-op when the source cannot be opened, otherwise
the destination gets the source's bytes (its observable metadata; only the
source path's mtime is ever read by the loader, so the copy's mtime is
irrelevant). -/
def platform_copy_file (fs : List (Path × FileInfo)) (src dst : Path) :
    List (Path × FileInfo) :=
  match lookupFile fs src with
  | none => fs
  | some fi => fsInsert fs dst fi

/-- Process-wide loader state: the filesystem and `g_dll_load_counter`
(a `u32`, kept reduced modulo `2^32`). -/
structure World where
  fs : List (Path × FileInfo)
  g_dll_load_counter : Nat
deriving DecidableEq, Repr

/-- Model of `PlatformDLL`; `temp_dll_path = none` models the empty string
(`temp_dll_path[0] == '\0'`), and `handle` holds the opened module. -/
structure PlatformDLL where
  handle : Option FileInfo
  dll_path : Path
  temp_dll_base : String
  temp_dll_path : Option Path
  lock_path : Path
  last_write_time : Nat
  is_valid : Bool
deriving DecidableEq, Repr

/-- Model of `GameCode`: the resolved entry point (carried as the module's content
identity), validity, and reported version. -/
structure GameCode where
  update_and_render : Option Nat
  is_valid : Bool
  version : Nat
deriving DecidableEq, Repr

/-- Model of `platform_load_game_code`.  Returns the updated world (filesystem and
counter) together with the new handle. -/
def platform_load_game_code (w : World) (source_dll_path : Path)
    (temp_dll_base : String) (lock_path : Path) : World × PlatformDLL :=
  let result0 : PlatformDLL :=
    { handle := none, dll_path := source_dll_path,
      temp_dll_base := temp_dll_base, temp_dll_path := none,
      lock_path := lock_path, last_write_time := 0, is_valid := false }
  if platform_file_exists w.fs lock_path then
    (w, result0)
  else
    let tp := Path.temp temp_dll_base (w.g_dll_load_counter % 2 ^ 32)
    let w1 : World :=
      { w with g_dll_load_counter := (w.g_dll_load_counter + 1) % 2 ^ 32 }
    let fs2 := platform_copy_file w1.fs source_dll_path tp
    match lookupFile fs2 tp with
    | none => ({ w1 with fs := fs2 }, { result0 with temp_dll_path := some tp })
    | some m =>
      if m.loadable then
        ({ w1 with fs := fs2 },
          { result0 with
            handle := some m, temp_dll_path := some tp,
            last_write_time := platform_get_file_write_time fs2
              source_dll_path,
            is_valid := true })
      else
        ({ w1 with fs := fs2 },
          { result0 with temp_dll_path := some tp })

/-- Model of `platform_unload_game_code`: `dlclose` the handle, delete the temp file
(when the temp path is non-empty), invalidate. -/
def platform_unload_game_code (w : World) (dll : PlatformDLL) :
    World × PlatformDLL :=
  let dll1 := { dll with handle := none }
  match dll1.temp_dll_path with
  | some tp =>
    ({ w with fs := fsDelete w.fs tp },
      { dll1 with temp_dll_path := none, is_valid := false })
  | none => (w, { dll1 with is_valid := false })

/-- Model of `platform_get_game_code`: resolve `game_update_and_render` (required)
and `game_get_version` (optional, defaulting the version to 0). -/
def platform_get_game_code (dll : PlatformDLL) : GameCode :=
  if dll.is_valid then
    match dll.handle with
    | some m =>
      { update_and_render := if m.has_entry then some m.content else none,
        is_valid := m.has_entry,
        version := match m.version_sym with | some v => v | none => 0 }
    | none => { update_and_render := none, is_valid := false, version := 0 }
  else { update_and_render := none, is_valid := false, version := 0 }

/-- Model of `platform_reload_game_code_if_changed`: on a modification-time change,
unload then load with the same three paths and re-resolve the call table. -/
def platform_reload_game_code_if_changed (w : World) (dll : PlatformDLL)
    (game_code : GameCode) : World × PlatformDLL × GameCode :=
  let new_write_time := platform_get_file_write_time w.fs dll.dll_path
  if platform_file_time_changed dll.last_write_time new_write_time then
    let wd := platform_unload_game_code w dll
    let wl := platform_load_game_code wd.1 dll.dll_path dll.temp_dll_base
      dll.lock_path
    (wl.1, wl.2, platform_get_game_code wl.2)
  else (w, dll, game_code)

/-- C4: when the lock-file path exists, `platform_load_game_code` returns an
invalid handle (`is_valid = false`, no temp path, no module handle) and the
world is untouched: no file is copied or created, no temp name is generated,
and `g_dll_load_counter` is not incremented. -/
theorem C4_lock_blocks_load (w : World) (source : Path) (base : String)
    (lock : Path) (hlock : platform_file_exists w.fs lock = true) :
    platform_load_game_code w source base lock =
      (w,
        { handle := none, dll_path := source, temp_dll_base := base,
          temp_dll_path := none, lock_path := lock, last_write_time := 0,
          is_valid := false }) := by
  simp only [platform_load_game_code, hlock, if_true]

theorem C4_witness :
    platform_load_game_code
      { fs := [(Path.str "lock.tmp",
          { mtime := 1, content := 0, loadable := true, has_entry := true,
            version_sym := none })], g_dll_load_counter := 0 }
      (Path.str "out/libgame.dylib") "out/game_temp"
      (Path.str "lock.tmp") =
      ({ fs := [(Path.str "lock.tmp",
          { mtime := 1, content := 0, loadable := true, has_entry := true,
            version_sym := none })], g_dll_load_counter := 0 },
        { handle := none, dll_path := Path.str "out/libgame.dylib",
          temp_dll_base := "out/game_temp", temp_dll_path := none,
          lock_path := Path.str "lock.tmp", last_write_time := 0,
          is_valid := false }) :=
  C4_lock_blocks_load _ _ _ _ (by decide)

/-- A successful `platform_load_game_code`: lock absent, source present and
loadable, no counter wrap-around.  The temp copy gets suffix `k` (the
counter value before the post-increment) and the counter advances to
`k + 1`. -/
theorem load_game_code_success (w : World) (source : Path) (base : String)
    (lock : Path) (fi : FileInfo) (k : Nat)
    (hcount : w.g_dll_load_counter = k) (hk : k + 1 < 2 ^ 32)
    (hlock : platform_file_exists w.fs lock = false)
    (hsrc : lookupFile w.fs source = some fi)
    (hload : fi.loadable = true)
    (hne : source ≠ Path.temp base k) :
    platform_load_game_code w source base lock =
      ({ fs := fsInsert w.fs (Path.temp base k) fi,
         g_dll_load_counter := k + 1 },
        { handle := some fi, dll_path := source, temp_dll_base := base,
          temp_dll_path := some (Path.temp base k), lock_path := lock,
          last_write_time := fi.mtime, is_valid := true }) := by
  rw [platform_load_game_code]
  simp only [hcount, hlock,
    show k % 2 ^ 32 = k from Nat.mod_eq_of_lt (by omega),
    show (k + 1) % 2 ^ 32 = k + 1 from Nat.mod_eq_of_lt (by omega),
    platform_copy_file, hsrc, Bool.false_eq_true, if_false,
    lookupFile_insert_self, hload, if_true, platform_get_file_write_time,
    lookupFile_insert_ne _ _ _ _ hne]

/-- C3: for a valid loaded handle whose temp copy carries counter suffix
`kprev` (and the counter stands at `kprev + 1`), if the lock file is absent
and the source's modification time differs from the stored one, one call to
`platform_reload_game_code_if_changed` performs exactly one
unload-then-load: the old temp file is gone from the filesystem, a new temp
copy exists and is loaded (`is_valid`), its counter suffix is exactly
`kprev + 1`, and the load counter advanced by exactly one more load. -/
theorem C3_reload_on_mtime_change (w : World) (dll : PlatformDLL)
    (gc : GameCode) (kprev : Nat) (fi : FileInfo)
    (hvalid : dll.is_valid = true)
    (htemp : dll.temp_dll_path = some (Path.temp dll.temp_dll_base kprev))
    (hcount : w.g_dll_load_counter = kprev + 1)
    (hwrap : kprev + 2 < 2 ^ 32)
    (hlock : platform_file_exists w.fs dll.lock_path = false)
    (hmtime : platform_get_file_write_time w.fs dll.dll_path ≠
      dll.last_write_time)
    (hsrc : lookupFile w.fs dll.dll_path = some fi)
    (hload : fi.loadable = true)
    (hneOld : dll.dll_path ≠ Path.temp dll.temp_dll_base kprev)
    (hneNew : dll.dll_path ≠ Path.temp dll.temp_dll_base (kprev + 1)) :
    (platform_reload_game_code_if_changed w dll gc).2.1.is_valid = true ∧
    (platform_reload_game_code_if_changed w dll gc).2.1.temp_dll_path =
      some (Path.temp dll.temp_dll_base (kprev + 1)) ∧
    platform_file_exists (platform_reload_game_code_if_changed w dll gc).1.fs
      (Path.temp dll.temp_dll_base kprev) = false ∧
    platform_file_exists (platform_reload_game_code_if_changed w dll gc).1.fs
      (Path.temp dll.temp_dll_base (kprev + 1)) = true ∧
    (platform_reload_game_code_if_changed w dll gc).1.g_dll_load_counter =
      kprev + 2 := by
  have hchanged : platform_file_time_changed dll.last_write_time
      (platform_get_file_write_time w.fs dll.dll_path) = true := by
    simp only [platform_file_time_changed, decide_eq_true_eq]
    exact fun h => hmtime h.symm
  have hunload : platform_unload_game_code w dll =
      ({ w with fs := fsDelete w.fs (Path.temp dll.temp_dll_base kprev) },
        { dll with
          handle := none, temp_dll_path := none,
          is_valid := false }) := by
    simp only [platform_unload_game_code, htemp]
  have hlock1 : platform_file_exists
      (fsDelete w.fs (Path.temp dll.temp_dll_base kprev)) dll.lock_path =
      false := by
    rw [platform_file_exists, lookupFile_delete]
    by_cases h : dll.lock_path = Path.temp dll.temp_dll_base kprev
    · rw [if_pos h]
      rfl
    · rw [if_neg h]
      exact hlock
  have hsrc1 : lookupFile
      (fsDelete w.fs (Path.temp dll.temp_dll_base kprev)) dll.dll_path =
      some fi := by
    rw [lookupFile_delete, if_neg hneOld]
    exact hsrc
  have hloadres := load_game_code_success
    { w with fs := fsDelete w.fs (Path.temp dll.temp_dll_base kprev) }
    dll.dll_path dll.temp_dll_base dll.lock_path fi (kprev + 1)
    hcount (by omega) hlock1 hsrc1 hload hneNew
  have hr : platform_reload_game_code_if_changed w dll gc =
      ((⟨fsInsert (fsDelete w.fs (Path.temp dll.temp_dll_base kprev))
          (Path.temp dll.temp_dll_base (kprev + 1)) fi,
          kprev + 1 + 1⟩ : World),
        ⟨some fi, dll.dll_path, dll.temp_dll_base,
          some (Path.temp dll.temp_dll_base (kprev + 1)), dll.lock_path,
          fi.mtime, true⟩,
        platform_get_game_code
          ⟨some fi, dll.dll_path, dll.temp_dll_base,
            some (Path.temp dll.temp_dll_base (kprev + 1)), dll.lock_path,
            fi.mtime, true⟩) := by
    rw [platform_reload_game_code_if_changed]
    simp only [hchanged, if_true, hunload, hloadres]
  rw [hr]
  have hpathne : Path.temp dll.temp_dll_base kprev ≠
      Path.temp dll.temp_dll_base (kprev + 1) := by
    intro h
    cases h
  refine ⟨rfl, rfl, ?_, ?_, rfl⟩
  · rw [platform_file_exists,
      lookupFile_insert_ne _ _ _ _ hpathne, lookupFile_delete, if_pos rfl]
    rfl
  · rw [platform_file_exists, lookupFile_insert_self]
    rfl

theorem C3_witness :
    (platform_reload_game_code_if_changed
      ⟨[(Path.str "out/libgame.dylib", ⟨7, 42, true, true, some 1⟩),
        (Path.temp "out/game_temp" 0, ⟨3, 41, true, true, some 1⟩)], 1⟩
      ⟨some ⟨3, 41, true, true, some 1⟩, Path.str "out/libgame.dylib",
        "out/game_temp", some (Path.temp "out/game_temp" 0),
        Path.str "lock.tmp", 3, true⟩
      ⟨some 41, true, 1⟩).2.1.temp_dll_path =
      some (Path.temp "out/game_temp" 1) :=
  (C3_reload_on_mtime_change _ _ _ 0 ⟨7, 42, true, true, some 1⟩
    rfl rfl rfl (by decide) (by decide) (by decide) (by decide) rfl
    (by decide) (by decide)).2.1

/-! ## Host loop (`linux_main.cpp`, `main`) -/

/-- The observable actions of one iteration of the host's
`while (g_running)` loop. -/
inductive HostStep where
  | reloadCheck
  | computeDt
  | pollEvents
  | resetArena
  | simulate
  | beginFrame
  | replay
  | endFrame
  | swapBuffers
  | resetTransitions
deriving DecidableEq, Repr

/-- One iteration of the host loop of `linux_main.cpp`'s `main`, in
statement order: `platform_reload_game_code_if_changed`, delta-time
computation, `process_x11_events`, `arena.used = 0`,
`update_and_render` (only when `g_game_code.is_valid`),
`renderer_begin_frame`, `execute_render_commands`, `renderer_end_frame`,
`glXSwapBuffers`, `reset_input_half_transitions`. -/
def hostLoopIteration (game_code_valid : Bool) : List HostStep :=
  [.reloadCheck, .computeDt, .pollEvents, .resetArena] ++
    (if game_code_valid then [.simulate] else []) ++
    [.beginFrame, .replay, .endFrame, .swapBuffers, .resetTransitions]

/-- C9 counterexample: the claim puts event/input polling first and the
reload check second, but in the host loop the reload check comes first:
polling does not precede the reload check. -/
theorem C9_counterexample :
    ¬ ((hostLoopIteration true).indexOf HostStep.pollEvents <
      (hostLoopIteration true).indexOf HostStep.reloadCheck) := by
  decide

/-- C9 (amended): every iteration of the host loop performs its four core
steps in this order: first the module reload check, then event/input
polling, then exactly one simulation call (skipped exactly when the module
call table is invalid), then exactly one render-command replay. -/
theorem C9_loop_order (game_code_valid : Bool) :
    (hostLoopIteration game_code_valid).count HostStep.reloadCheck = 1 ∧
    (hostLoopIteration game_code_valid).count HostStep.pollEvents = 1 ∧
    (hostLoopIteration game_code_valid).count HostStep.simulate =
      cond game_code_valid 1 0 ∧
    (hostLoopIteration game_code_valid).count HostStep.replay = 1 ∧
    (hostLoopIteration game_code_valid).indexOf HostStep.reloadCheck <
      (hostLoopIteration game_code_valid).indexOf HostStep.pollEvents ∧
    (hostLoopIteration game_code_valid).indexOf HostStep.pollEvents <
      (hostLoopIteration game_code_valid).indexOf HostStep.replay ∧
    cond game_code_valid
      ((hostLoopIteration game_code_valid).indexOf HostStep.pollEvents <
        (hostLoopIteration game_code_valid).indexOf HostStep.simulate ∧
        (hostLoopIteration game_code_valid).indexOf HostStep.simulate <
        (hostLoopIteration game_code_valid).indexOf HostStep.replay)
      True := by
  cases game_code_valid <;>
    simp only [Bool.cond_false, Bool.cond_true] <;> decide

end HotReload

